import Mathlib

/-! # asio_samples: session pool factory and handler binding

A shallow embedding of

* `src/examples/ma_echo_server_core/src/simple_session_factory.cpp`
  (`simple_session_factory::create`, `simple_session_factory::release`,
  `session_wrapper::create`), and
* `src/tests/ma_bind_handler_test/src/bind_handler_test.cpp`
  (`tracking_handler` and the three `delegation_with_N_arg(s)` tests),

followed by the properties of the specification that concern them.
-/

/-! ## Session pool factory: data model -/

/-- The two values `simple_session_factory::create` stores in its `error`
out-parameter: a default constructed `boost::system::error_code()` and
`make_error_code(boost::system::errc::not_enough_memory)`. -/
inductive error_code where
  | success
  | not_enough_memory
  deriving DecidableEq, Repr

/-- A session object as the factory sees it: the address of the object (the
identity of every pointer to it), the `io_service` it was constructed on and
the `session_config` it was constructed with (the two constructor arguments of
`session_wrapper`).  `Config` stands for `session_config`, whose declaration
is not among the sources and which the factory only passes on. -/
structure session (Config : Type) where
  addr : Nat
  io_service : Nat
  config : Config
  deriving DecidableEq, Repr

/-- A `session_ptr`: `none` is the null pointer `session_ptr()`. -/
abbrev session_ptr (Config : Type) := Option (session Config)

/-- The allocator behind `detail::make_shared`, as the list of the outcomes of
its next requests: `some a` is a successful allocation at address `a`, `none`
is `std::bad_alloc`.  An allocator with no outcome left is out of memory. -/
abbrev allocator := List (Option Nat)

/-- One request to `detail::make_shared`: its outcome and the allocator
afterwards. -/
def make_shared (h : allocator) : Option Nat × allocator :=
  match h with
  | [] => (none, [])
  | o :: rest => (o, rest)

/-- The static member function `session_wrapper::create(io_service, config)`:
one `make_shared` request; on success the new object is a session constructed
from `io_service` and `config`, on `std::bad_alloc` there is no object (`none`
stands for the exception leaving the function). -/
def session_wrapper.create {Config : Type} (io_service : Nat) (config : Config)
    (h : allocator) : Option (session Config) × allocator :=
  match make_shared h with
  | (some a, h') => (some { addr := a, io_service := io_service, config := config }, h')
  | (none, h') => (none, h')

/-! ### The pool container -/

/-- Modelled from the spec: the container of `recycled_`, `sp_intrusive_list`
(declared in a header that is not among the sources), is a sequence of
non-null session pointers, head first.  "Entries support O(1) insertion at
the head and O(1) removal of a specific entry by identity." -/
abbrev sp_intrusive_list (Config : Type) := List (session Config)

/-- Modelled from the spec: `sp_intrusive_list::empty()`. -/
def sp_intrusive_list.empty {Config : Type} (l : sp_intrusive_list Config) : Bool :=
  l.isEmpty

/-- Modelled from the spec: `sp_intrusive_list::size()`. -/
def sp_intrusive_list.size {Config : Type} (l : sp_intrusive_list Config) : Nat :=
  l.length

/-- Modelled from the spec: `sp_intrusive_list::front()`, the head entry
(null on an empty list). -/
def sp_intrusive_list.front {Config : Type} (l : sp_intrusive_list Config) :
    session_ptr Config :=
  l.head?

/-- Modelled from the spec: `sp_intrusive_list::push_front(value)`, insertion
at the head. -/
def sp_intrusive_list.push_front {Config : Type} (l : sp_intrusive_list Config)
    (value : session Config) : sp_intrusive_list Config :=
  value :: l

/-- Modelled from the spec: `sp_intrusive_list::erase(value)`, removal of the
entry that is `value` by identity, that is, of the entry at the same
address. -/
def sp_intrusive_list.erase {Config : Type} (l : sp_intrusive_list Config)
    (value : session Config) : sp_intrusive_list Config :=
  l.eraseP (fun e => e.addr == value.addr)

/-! ### The factory -/

/-- The data members of `simple_session_factory` that `create` and `release`
use: `max_recycled_`, `io_service_` and the pool `recycled_`. -/
structure simple_session_factory (Config : Type) where
  max_recycled_ : Nat
  io_service_ : Nat
  recycled_ : sp_intrusive_list Config
  deriving DecidableEq, Repr

/-- What a call of `create` leaves behind: the returned pointer, the value of
the `error` out-parameter, the factory and the allocator. -/
structure create_result (Config : Type) where
  value : session_ptr Config
  error : error_code
  factory : simple_session_factory Config
  heap : allocator
  deriving DecidableEq, Repr

/-- The member function `simple_session_factory::create(config, error)`.

With a non-empty pool: `session = recycled_.front()`,
`recycled_.erase(session)`, `error = error_code()`, `return session`.
Otherwise `session_wrapper::create(io_service_, config)` inside `try`: on
success `error = error_code()` and the new pointer is returned, on
`std::bad_alloc` `error = not_enough_memory` and `session_ptr()` is
returned. -/
def simple_session_factory.create {Config : Type} (f : simple_session_factory Config)
    (config : Config) (h : allocator) : create_result Config :=
  if !sp_intrusive_list.empty f.recycled_ then
    match sp_intrusive_list.front f.recycled_ with
    | some session =>
      { value := some session
        error := error_code.success
        factory := { f with recycled_ := sp_intrusive_list.erase f.recycled_ session }
        heap := h }
    | none =>
      -- `front()` of a non-empty list is never null
      { value := none, error := error_code.success, factory := f, heap := h }
  else
    match session_wrapper.create f.io_service_ config h with
    | (some session, h') =>
      { value := some session, error := error_code.success, factory := f, heap := h' }
    | (none, h') =>
      { value := none, error := error_code.not_enough_memory, factory := f, heap := h' }

/-- The member function `simple_session_factory::release(session)`:
`push_front` when `max_recycled_ > recycled_.size()`, nothing otherwise.  The
argument is a pointer to a session; the pool links its entries through the
pointee. -/
def simple_session_factory.release {Config : Type} (f : simple_session_factory Config)
    (s : session Config) : simple_session_factory Config :=
  if f.max_recycled_ > sp_intrusive_list.size f.recycled_ then
    { f with recycled_ := sp_intrusive_list.push_front f.recycled_ s }
  else
    f

/-- A factory as its constructor leaves it: the pool is empty. -/
def simple_session_factory.init (Config : Type) (io_service max_recycled : Nat) :
    simple_session_factory Config :=
  { max_recycled_ := max_recycled, io_service_ := io_service, recycled_ := [] }

/-! ### Sequences of calls -/

/-- A call made on a factory. -/
inductive factory_call (Config : Type) where
  | create (config : Config)
  | release (s : session Config)
  deriving DecidableEq, Repr

/-- The handles callers hold, next to the factory and the allocator: what the
ownership discipline of the pool is stated on. -/
structure client_state (Config : Type) where
  factory : simple_session_factory Config
  heap : allocator
  held : List (session Config)
  deriving DecidableEq, Repr

/-- One call of a caller: the pointer `create` returns (when it is not null)
joins the held handles, a released handle leaves them. -/
def client_state.step {Config : Type} (st : client_state Config)
    (c : factory_call Config) : client_state Config :=
  match c with
  | factory_call.create config =>
    let r := st.factory.create config st.heap
    { factory := r.factory
      heap := r.heap
      held := match r.value with
        | some s => s :: st.held
        | none => st.held }
  | factory_call.release s =>
    { factory := st.factory.release s
      heap := st.heap
      held := st.held.eraseP (fun e => e.addr == s.addr) }

/-- A sequence of calls of callers, first call first. -/
def client_state.run {Config : Type} (st : client_state Config)
    (calls : List (factory_call Config)) : client_state Config :=
  calls.foldl client_state.step st

/-- The discipline of a single call: a session that `create` constructs lies
at an address no held or pooled session lies at, and `release` is given a
handle the callers hold. -/
def client_state.admits {Config : Type} (st : client_state Config)
    (c : factory_call Config) : Prop :=
  match c with
  | factory_call.create _ =>
    sp_intrusive_list.empty st.factory.recycled_ = true →
      ∀ a, (make_shared st.heap).1 = some a →
        a ∉ (st.factory.recycled_ ++ st.held).map session.addr
  | factory_call.release s => s ∈ st.held

/-- The discipline of a sequence of calls: each call obeys it in the state it
is made in. -/
def client_state.admissible {Config : Type} (st : client_state Config)
    (calls : List (factory_call Config)) : Prop :=
  match calls with
  | [] => True
  | c :: cs => st.admits c ∧ (st.step c).admissible cs

/-- Callers that hold nothing, a factory with an empty pool. -/
def client_state.init (Config : Type) (io_service max_recycled : Nat) (h : allocator) :
    client_state Config :=
  { factory := simple_session_factory.init Config io_service max_recycled
    heap := h
    held := [] }

/-- The addresses of the pooled sessions, head first. -/
def client_state.pooled {Config : Type} (st : client_state Config) : List Nat :=
  st.factory.recycled_.map session.addr

/-- The addresses of the sessions callers hold. -/
def client_state.owned {Config : Type} (st : client_state Config) : List Nat :=
  st.held.map session.addr

/-- Releases in the order of the list. -/
def simple_session_factory.release_all {Config : Type}
    (f : simple_session_factory Config) (hs : List (session Config)) :
    simple_session_factory Config :=
  hs.foldl simple_session_factory.release f

/-- Calls of `create`, one for each configuration of the list, in order: the
returned pointers and error codes in the order of the calls, and what the last
call leaves behind. -/
def simple_session_factory.create_all {Config : Type}
    (f : simple_session_factory Config) (h : allocator) (configs : List Config) :
    List (session_ptr Config × error_code) × simple_session_factory Config × allocator :=
  match configs with
  | [] => ([], f, h)
  | config :: rest =>
    let r := f.create config h
    let t := simple_session_factory.create_all r.factory r.heap rest
    ((r.value, r.error) :: t.1, t.2)

/-! ## Handler binding: data model -/

/-- The latches of a test, by address: the value each `detail::latch` holds. -/
abbrev store := Nat → Nat

/-- Modelled from the spec: `detail::latch::count_up()` (the header
`ma/detail/latch.hpp` is not among the sources) increments the latch at
address `c` by one and leaves every other latch alone. -/
def latch.count_up (c : Nat) (σ : store) : store :=
  Function.update σ c (σ c + 1)

/-- Modelled from the spec: `detail::latch::value()`, the current count. -/
def latch.value (c : Nat) (σ : store) : Nat :=
  σ c

/-- The stores of the tests: every `detail::latch` is default constructed, with
count zero. -/
def store.fresh : store :=
  fun _ => 0

/-- The class `tracking_handler`: its three data members, references to
latches, as the addresses of the latches. -/
structure tracking_handler where
  alloc_counter_ : Nat
  dealloc_counter_ : Nat
  invoke_counter_ : Nat
  deriving DecidableEq, Repr

/-- The overload `tracking_handler::operator()(latch&)`. -/
def tracking_handler.call1 (_ : tracking_handler) (call_counter : Nat) (σ : store) : store :=
  latch.count_up call_counter σ

/-- The overload `tracking_handler::operator()(latch&, latch&)`: the two
`count_up` calls in the order of the statements. -/
def tracking_handler.call2 (_ : tracking_handler) (call_counter1 call_counter2 : Nat)
    (σ : store) : store :=
  latch.count_up call_counter2 (latch.count_up call_counter1 σ)

/-- The overload `tracking_handler::operator()(latch&, latch&, latch&)`. -/
def tracking_handler.call3 (_ : tracking_handler)
    (call_counter1 call_counter2 call_counter3 : Nat) (σ : store) : store :=
  latch.count_up call_counter3
    (latch.count_up call_counter2 (latch.count_up call_counter1 σ))

/-- The friend `asio_handler_allocate(size, context)` of `tracking_handler`:
`context->alloc_counter_.count_up()`, then the default allocation of
Boost.Asio, which touches no latch (the block it returns is not part of the
store). -/
def tracking_handler.asio_handler_allocate (context : tracking_handler) (σ : store) : store :=
  latch.count_up context.alloc_counter_ σ

/-- The friend `asio_handler_deallocate(pointer, size, context)` of
`tracking_handler`: `context->dealloc_counter_.count_up()`, then the default
deallocation. -/
def tracking_handler.asio_handler_deallocate (context : tracking_handler) (σ : store) :
    store :=
  latch.count_up context.dealloc_counter_ σ

/-- The friend `asio_handler_invoke(function, context)` of `tracking_handler`
(all three overloads have the same body): `context->invoke_counter_.count_up()`,
then `boost::asio::asio_handler_invoke(function)`, which calls `function()`. -/
def tracking_handler.asio_handler_invoke (context : tracking_handler)
    (function : store → store) (σ : store) : store :=
  function (latch.count_up context.invoke_counter_ σ)

/-- A completion handler as the execution context and `bind_handler` see it:
the call operator, of type `Call`, and the three customization hooks, each
`none` when the type of the handler declares no such hook. -/
structure handler (Call : Type) where
  call : Call
  allocate : Option (store → store)
  deallocate : Option (store → store)
  invoke : Option ((store → store) → store → store)

/-- A `tracking_handler` as a handler of one argument: `call1` and the three
friend hooks. -/
def tracking_handler.handler1 (t : tracking_handler) : handler (Nat → store → store) :=
  { call := t.call1
    allocate := some t.asio_handler_allocate
    deallocate := some t.asio_handler_deallocate
    invoke := some t.asio_handler_invoke }

/-- A `tracking_handler` as a handler of two arguments. -/
def tracking_handler.handler2 (t : tracking_handler) :
    handler (Nat → Nat → store → store) :=
  { call := t.call2
    allocate := some t.asio_handler_allocate
    deallocate := some t.asio_handler_deallocate
    invoke := some t.asio_handler_invoke }

/-- A `tracking_handler` as a handler of three arguments. -/
def tracking_handler.handler3 (t : tracking_handler) :
    handler (Nat → Nat → Nat → store → store) :=
  { call := t.call3
    allocate := some t.asio_handler_allocate
    deallocate := some t.asio_handler_deallocate
    invoke := some t.asio_handler_invoke }

/-- Modelled from the spec: `ma::bind_handler(handler, arg1)` (the header
`ma/bind_handler.hpp` is not among the sources).  "Invoking `BH()` invokes
`H(A1, ..., An)` exactly once"; each hook of the composed handler is the hook
of `H` when `H` defines one, and absent otherwise. -/
def bind_handler1 {A1 : Type} (h : handler (A1 → store → store)) (arg1 : A1) :
    handler (store → store) :=
  { call := h.call arg1
    allocate := h.allocate
    deallocate := h.deallocate
    invoke := h.invoke }

/-- Modelled from the spec: `ma::bind_handler(handler, arg1, arg2)`. -/
def bind_handler2 {A1 A2 : Type} (h : handler (A1 → A2 → store → store))
    (arg1 : A1) (arg2 : A2) : handler (store → store) :=
  { call := h.call arg1 arg2
    allocate := h.allocate
    deallocate := h.deallocate
    invoke := h.invoke }

/-- Modelled from the spec: `ma::bind_handler(handler, arg1, arg2, arg3)`. -/
def bind_handler3 {A1 A2 A3 : Type} (h : handler (A1 → A2 → A3 → store → store))
    (arg1 : A1) (arg2 : A2) (arg3 : A3) : handler (store → store) :=
  { call := h.call arg1 arg2 arg3
    allocate := h.allocate
    deallocate := h.deallocate
    invoke := h.invoke }

/-! ### The execution context -/

/-- Modelled from the spec: the allocation a context performs for a handler,
"`tryAllocate(context, size) -> block|absent`": through the allocation hook of
the handler when it has one, by the default strategy of the context, which
touches no latch, otherwise. -/
def handler.do_allocate {Call : Type} (h : handler Call) (σ : store) : store :=
  match h.allocate with
  | some hook => hook σ
  | none => σ

/-- Modelled from the spec: "`deallocate(context, block, size)`", the mirror
of `do_allocate`. -/
def handler.do_deallocate {Call : Type} (h : handler Call) (σ : store) : store :=
  match h.deallocate with
  | some hook => hook σ
  | none => σ

/-- Modelled from the spec: "`tryInvoke(context, callable) -> bool` (returns
whether a custom hook handled dispatch; if not, caller falls back to calling
`callable` directly)". -/
def handler.do_invoke {Call : Type} (h : handler Call) (callable : store → store)
    (σ : store) : store :=
  match h.invoke with
  | some hook => hook callable σ
  | none => callable σ

/-- Modelled from the spec: the execution context (`boost::asio::io_service`,
a library outside the sources): the handlers posted and not yet run, oldest
first. -/
structure io_service where
  queue : List (handler (store → store))

/-- A context with no pending work. -/
def io_service.init : io_service :=
  { queue := [] }

/-- Modelled from the spec: `io_service::post(handler)`: the context allocates
the memory of the pending operation through the handler ("a context that
exercises allocation") and queues the handler. -/
def io_service.post (io : io_service) (h : handler (store → store)) (σ : store) :
    io_service × store :=
  ({ queue := io.queue ++ [h] }, h.do_allocate σ)

/-- Modelled from the spec: the completion of one posted handler: the memory of
the operation is given back through the handler ("exactly once for every
successful allocation hook call"), then the call is dispatched through the
invocation hook of the handler, with the handler itself as the callable. -/
def io_service.complete (h : handler (store → store)) (σ : store) : store :=
  h.do_invoke h.call (h.do_deallocate σ)

/-- Modelled from the spec: `io_service::run()`: every pending handler is
completed, oldest first, and none is left. -/
def io_service.run (io : io_service) (σ : store) : io_service × store :=
  ({ queue := [] }, io.queue.foldl (fun τ h => io_service.complete h τ) σ)

/-- The store after a context with no pending work has posted `h` and run. -/
def io_service.dispatch (h : handler (store → store)) (σ : store) : store :=
  let posted := io_service.init.post h σ
  (posted.1.run posted.2).2

/-- The store at the assertions of `TEST(bind_handler, delegation_with_1_arg)`:
`alloc_counter`, `dealloc_counter`, `invoke_counter` and `call_counter` are the
latches at the addresses 0, 1, 2 and 3. -/
def delegation_with_1_arg : store :=
  io_service.dispatch
    (bind_handler1 (tracking_handler.mk 0 1 2).handler1 3) store.fresh

/-- The store at the assertions of `TEST(bind_handler, delegation_with_2_args)`. -/
def delegation_with_2_args : store :=
  io_service.dispatch
    (bind_handler2 (tracking_handler.mk 0 1 2).handler2 3 3) store.fresh

/-- The store at the assertions of `TEST(bind_handler, delegation_with_3_args)`. -/
def delegation_with_3_args : store :=
  io_service.dispatch
    (bind_handler3 (tracking_handler.mk 0 1 2).handler3 3 3 3) store.fresh

/-- The number of `count_up` calls a change of store amounts to on the latches
of `s`. -/
def store.increments (s : Finset Nat) (σ τ : store) : Nat :=
  (∑ c in s, τ c) - (∑ c in s, σ c)

/-- The hook calls of a `tracking_handler` between the stores `σ` and `τ`, read
off its three counters: as many allocation hook calls as deallocation hook
calls, `k` of each with `1 ≤ k`, and exactly one invocation hook call. -/
def tracking_handler.hooks_paired (t : tracking_handler) (σ τ : store) : Prop :=
  ∃ k, 1 ≤ k ∧
    latch.value t.alloc_counter_ τ = latch.value t.alloc_counter_ σ + k ∧
    latch.value t.dealloc_counter_ τ = latch.value t.dealloc_counter_ σ + k ∧
    latch.value t.invoke_counter_ τ = latch.value t.invoke_counter_ σ + 1

/-! ### The hook calls of the execution context -/

/-- The three customization hooks a context can call on a handler. -/
inductive hook_call where
  | allocate
  | deallocate
  | invoke
  deriving DecidableEq, Repr

/-- A store together with the record of the hook calls the context has made on
handlers so far, oldest first. -/
structure traced_store where
  latches : store
  calls : List hook_call

/-- Modelled from the spec: `do_allocate` with its record: a call of the
allocation hook of the handler is recorded; the default strategy of the
context is no hook call. -/
def handler.do_allocate_traced {Call : Type} (h : handler Call) (τ : traced_store) :
    traced_store :=
  match h.allocate with
  | some hook => { latches := hook τ.latches, calls := τ.calls ++ [hook_call.allocate] }
  | none => τ

/-- Modelled from the spec: `do_deallocate` with its record. -/
def handler.do_deallocate_traced {Call : Type} (h : handler Call) (τ : traced_store) :
    traced_store :=
  match h.deallocate with
  | some hook => { latches := hook τ.latches, calls := τ.calls ++ [hook_call.deallocate] }
  | none => τ

/-- Modelled from the spec: `do_invoke` with its record: a dispatch through the
invocation hook of the handler is recorded, a direct call of the callable is
no hook call. -/
def handler.do_invoke_traced {Call : Type} (h : handler Call) (callable : store → store)
    (τ : traced_store) : traced_store :=
  match h.invoke with
  | some hook => { latches := hook callable τ.latches, calls := τ.calls ++ [hook_call.invoke] }
  | none => { latches := callable τ.latches, calls := τ.calls }

/-- Modelled from the spec: `io_service::post(handler)` with its record. -/
def io_service.post_traced (io : io_service) (h : handler (store → store))
    (τ : traced_store) : io_service × traced_store :=
  ({ queue := io.queue ++ [h] }, h.do_allocate_traced τ)

/-- Modelled from the spec: the completion of one posted handler with its
record. -/
def io_service.complete_traced (h : handler (store → store)) (τ : traced_store) :
    traced_store :=
  h.do_invoke_traced h.call (h.do_deallocate_traced τ)

/-- Modelled from the spec: `io_service::run()` with its record. -/
def io_service.run_traced (io : io_service) (τ : traced_store) :
    io_service × traced_store :=
  ({ queue := [] }, io.queue.foldl (fun υ h => io_service.complete_traced h υ) τ)

/-- The store, and the hook calls made, after a context with no pending work
has posted `h` and run, from the store `σ` and an empty record. -/
def io_service.dispatch_traced (h : handler (store → store)) (σ : store) : traced_store :=
  let posted := io_service.init.post_traced h { latches := σ, calls := [] }
  (posted.1.run_traced posted.2).2

/-- The pairing of a record of hook calls: as many allocation hook calls as
deallocation hook calls, at least one of each, and exactly one invocation hook
call. -/
def hook_call.paired (calls : List hook_call) : Prop :=
  calls.count hook_call.allocate = calls.count hook_call.deallocate ∧
    1 ≤ calls.count hook_call.allocate ∧
    1 ≤ calls.count hook_call.deallocate ∧
    calls.count hook_call.invoke = 1

/-! ## Session pool factory: properties -/

section factory
variable {Config : Type}

/-- On a non-empty pool `create` returns the head and leaves the tail. -/
theorem simple_session_factory.create_cons (m io : Nat) (s : session Config)
    (rest : sp_intrusive_list Config) (config : Config) (h : allocator) :
    simple_session_factory.create
        { max_recycled_ := m, io_service_ := io, recycled_ := s :: rest } config h =
      { value := some s
        error := error_code.success
        factory := { max_recycled_ := m, io_service_ := io, recycled_ := rest }
        heap := h } := by
  simp [simple_session_factory.create, sp_intrusive_list.empty, sp_intrusive_list.front,
    sp_intrusive_list.erase]

/-- On an empty pool `create` is one construction. -/
theorem simple_session_factory.create_nil (m io : Nat) (config : Config) (h : allocator) :
    simple_session_factory.create
        { max_recycled_ := m, io_service_ := io, recycled_ := ([] : sp_intrusive_list Config) }
        config h =
      match make_shared h with
      | (some a, h') =>
        { value := some { addr := a, io_service := io, config := config }
          error := error_code.success
          factory := { max_recycled_ := m, io_service_ := io, recycled_ := [] }
          heap := h' }
      | (none, h') =>
        { value := none
          error := error_code.not_enough_memory
          factory := { max_recycled_ := m, io_service_ := io, recycled_ := [] }
          heap := h' } := by
  simp only [simple_session_factory.create, sp_intrusive_list.empty, session_wrapper.create]
  rcases hm : make_shared h with ⟨_ | a, h'⟩ <;> simp

/-- The pool never grows in `create`. -/
theorem simple_session_factory.create_size_le (f : simple_session_factory Config)
    (config : Config) (h : allocator) :
    sp_intrusive_list.size (f.create config h).factory.recycled_ ≤
      sp_intrusive_list.size f.recycled_ := by
  obtain ⟨m, io, pool⟩ := f
  cases pool with
  | nil =>
    rw [simple_session_factory.create_nil]
    rcases make_shared h with ⟨_ | a, h'⟩ <;> simp
  | cons s rest =>
    rw [simple_session_factory.create_cons]
    simp [sp_intrusive_list.size]

/-- The capacity is never changed by `create`. -/
theorem simple_session_factory.create_max (f : simple_session_factory Config)
    (config : Config) (h : allocator) :
    (f.create config h).factory.max_recycled_ = f.max_recycled_ := by
  obtain ⟨m, io, pool⟩ := f
  cases pool with
  | nil =>
    rw [simple_session_factory.create_nil]
    rcases make_shared h with ⟨_ | a, h'⟩ <;> simp
  | cons s rest => rw [simple_session_factory.create_cons]

/-- The capacity is never changed by `release`. -/
theorem simple_session_factory.release_max (f : simple_session_factory Config)
    (s : session Config) : (f.release s).max_recycled_ = f.max_recycled_ := by
  unfold simple_session_factory.release
  split <;> rfl

/-- A pool within its capacity stays within it in `release`. -/
theorem simple_session_factory.release_size_le (f : simple_session_factory Config)
    (s : session Config)
    (hf : sp_intrusive_list.size f.recycled_ ≤ f.max_recycled_) :
    sp_intrusive_list.size (f.release s).recycled_ ≤ f.max_recycled_ := by
  unfold simple_session_factory.release
  split
  · simp only [sp_intrusive_list.size, sp_intrusive_list.push_front, List.length_cons] at *
    omega
  · exact hf

/-- The bound of the pool, with the capacity it is measured against, is kept by
every call. -/
theorem client_state.step_bounded (st : client_state Config) (c : factory_call Config)
    (m : Nat) (hm : st.factory.max_recycled_ = m)
    (hb : sp_intrusive_list.size st.factory.recycled_ ≤ m) :
    (st.step c).factory.max_recycled_ = m ∧
      sp_intrusive_list.size (st.step c).factory.recycled_ ≤ m := by
  cases c with
  | create config =>
    refine ⟨?_, ?_⟩
    · simpa [client_state.step, simple_session_factory.create_max] using hm
    · exact le_trans (simple_session_factory.create_size_le _ _ _) hb
  | release s =>
    refine ⟨?_, ?_⟩
    · simpa [client_state.step, simple_session_factory.release_max] using hm
    · have := simple_session_factory.release_size_le st.factory s (by omega)
      simpa [client_state.step, hm] using this

/-- The bound of the pool is kept by every sequence of calls. -/
theorem client_state.run_bounded (calls : List (factory_call Config))
    (st : client_state Config) (m : Nat) (hm : st.factory.max_recycled_ = m)
    (hb : sp_intrusive_list.size st.factory.recycled_ ≤ m) :
    (st.run calls).factory.max_recycled_ = m ∧
      sp_intrusive_list.size (st.run calls).factory.recycled_ ≤ m := by
  induction calls generalizing st with
  | nil => exact ⟨hm, hb⟩
  | cons c cs ih =>
    have hs := client_state.step_bounded st c m hm hb
    simpa [client_state.run] using ih (st.step c) hs.1 hs.2

/-- C1 (pool capacity invariant): a factory whose pool starts empty, with any
capacity `max_recycled`, any allocator and any sequence of `create` and
`release` calls (any handles, any construction outcomes), has at most
`max_recycled` pooled sessions after every call of the sequence, that is,
after every prefix `calls.take k`; the capacity itself is never changed. -/
theorem pool_capacity_invariant (io_service max_recycled : Nat) (h : allocator)
    (calls : List (factory_call Config)) (k : Nat) :
    ((client_state.init Config io_service max_recycled h).run
        (calls.take k)).factory.max_recycled_ = max_recycled ∧
    sp_intrusive_list.size
      ((client_state.init Config io_service max_recycled h).run
        (calls.take k)).factory.recycled_ ≤ max_recycled :=
  client_state.run_bounded (calls.take k) _ max_recycled rfl (Nat.zero_le _)

/-- C2 (LIFO pop): on a pool with head `s` and tail `rest`, `create` returns
`s` with the success code, leaves exactly `rest` as the pool (one entry fewer,
the order of the others kept), keeps the capacity and the context, and
constructs nothing: the allocator is untouched. -/
theorem create_pops_head (m io : Nat) (s : session Config)
    (rest : sp_intrusive_list Config) (config : Config) (h : allocator) :
    simple_session_factory.create
        { max_recycled_ := m, io_service_ := io, recycled_ := s :: rest } config h =
      { value := sp_intrusive_list.front (s :: rest)
        error := error_code.success
        factory := { max_recycled_ := m, io_service_ := io, recycled_ := rest }
        heap := h } ∧
    sp_intrusive_list.size rest + 1 = sp_intrusive_list.size (s :: rest) :=
  ⟨simple_session_factory.create_cons m io s rest config h, rfl⟩

/-- Releases into a pool with room for all of them stack up in reverse. -/
theorem simple_session_factory.release_all_room (hs : List (session Config)) (m io : Nat)
    (pool : sp_intrusive_list Config) (hroom : pool.length + hs.length ≤ m) :
    simple_session_factory.release_all
        { max_recycled_ := m, io_service_ := io, recycled_ := pool } hs =
      { max_recycled_ := m, io_service_ := io, recycled_ := hs.reverse ++ pool } := by
  induction hs generalizing pool with
  | nil => rfl
  | cons x xs ih =>
    have hlt : m > sp_intrusive_list.size pool := by
      simp only [sp_intrusive_list.size, List.length_cons] at *
      omega
    have hstep : simple_session_factory.release
        { max_recycled_ := m, io_service_ := io, recycled_ := pool } x =
        { max_recycled_ := m, io_service_ := io, recycled_ := x :: pool } := by
      simp [simple_session_factory.release, sp_intrusive_list.push_front, hlt]
    have hroom2 : (x :: pool).length + xs.length ≤ m := by
      simp only [List.length_cons] at *
      omega
    simp only [simple_session_factory.release_all, List.foldl_cons, hstep]
    simpa [simple_session_factory.release_all] using ih (x :: pool) hroom2

/-- As many `create` calls as the pool has entries hand the pool out from the
head on and leave it empty, whatever the configurations and the allocator. -/
theorem simple_session_factory.create_all_pool (pool : sp_intrusive_list Config)
    (m io : Nat) (h : allocator) (configs : List Config)
    (hlen : configs.length = pool.length) :
    simple_session_factory.create_all
        { max_recycled_ := m, io_service_ := io, recycled_ := pool } h configs =
      (pool.map (fun s => (some s, error_code.success)),
        { max_recycled_ := m, io_service_ := io, recycled_ := [] }, h) := by
  induction pool generalizing configs with
  | nil =>
    cases configs with
    | nil => rfl
    | cons c cs => simp at hlen
  | cons s rest ih =>
    cases configs with
    | nil => simp at hlen
    | cons c cs =>
      have hlen2 : cs.length = rest.length := by simpa using hlen
      simp [simple_session_factory.create_all, simple_session_factory.create_cons,
        ih cs hlen2]

/-- C3 (LIFO reuse order): for `k ≤ max_recycled` distinct handles `hs`,
releasing them in order into the empty pool and then calling `create` `k`
times (any configurations, any allocator) returns them in the reverse order,
each with the success code, leaves the pool empty and requests nothing from
the allocator. -/
theorem lifo_reuse_order (io_service max_recycled : Nat) (hs : List (session Config))
    (configs : List Config) (h : allocator)
    (hk : hs.length ≤ max_recycled)
    (_hdistinct : (hs.map session.addr).Nodup)
    (hcalls : configs.length = hs.length) :
    simple_session_factory.create_all
        (simple_session_factory.release_all
          (simple_session_factory.init Config io_service max_recycled) hs) h configs =
      (hs.reverse.map (fun s => (some s, error_code.success)),
        simple_session_factory.init Config io_service max_recycled, h) := by
  have hrel := simple_session_factory.release_all_room hs max_recycled io_service []
    (by simpa using hk)
  simp only [simple_session_factory.init, List.append_nil] at hrel ⊢
  rw [hrel]
  exact simple_session_factory.create_all_pool hs.reverse max_recycled io_service h configs
    (by simpa using hcalls)

/-- The witness of the spec for C3: `max_recycled = 2`, `release(S1)`,
`release(S2)`, and the next two `create` calls return `S2`, then `S1`. -/
theorem lifo_reuse_order_witness :
    simple_session_factory.create_all
        (simple_session_factory.release_all (simple_session_factory.init Nat 0 2)
          [{ addr := 1, io_service := 0, config := 7 },
            { addr := 2, io_service := 0, config := 7 }]) [] [8, 9] =
      ([(some { addr := 2, io_service := 0, config := 7 }, error_code.success),
          (some { addr := 1, io_service := 0, config := 7 }, error_code.success)],
        simple_session_factory.init Nat 0 2, []) :=
  lifo_reuse_order 0 2
    [{ addr := 1, io_service := 0, config := 7 }, { addr := 2, io_service := 0, config := 7 }]
    [8, 9] [] (by decide) (by decide) (by decide)

/-- C4 (capacity overflow drop): with `max_recycled_ ≤ recycled_.size()`,
`release` of any handle leaves the factory, and so the pool, exactly as it
was: same entries, same order, the handle not retained. -/
theorem release_full_drops (f : simple_session_factory Config) (s : session Config)
    (hfull : f.max_recycled_ ≤ sp_intrusive_list.size f.recycled_) :
    f.release s = f ∧ (f.release s).recycled_ = f.recycled_ := by
  have hnot : ¬ f.max_recycled_ > sp_intrusive_list.size f.recycled_ := by omega
  simp [simple_session_factory.release, hnot]

/-- The witness of the spec for C4: `max_recycled = 2`, pool `[S2, S1]`, and
`release(S3)` leaves the pool at `[S2, S1]`. -/
theorem release_full_drops_witness :
    (simple_session_factory.release
        { max_recycled_ := 2, io_service_ := 0
          recycled_ := [{ addr := 2, io_service := 0, config := 7 },
            { addr := 1, io_service := 0, config := 7 }] }
        ({ addr := 3, io_service := 0, config := 7 } : session Nat)).recycled_ =
      [{ addr := 2, io_service := 0, config := 7 },
        { addr := 1, io_service := 0, config := 7 }] :=
  (release_full_drops
    { max_recycled_ := 2, io_service_ := 0
      recycled_ := [{ addr := 2, io_service := 0, config := 7 },
        { addr := 1, io_service := 0, config := 7 }] }
    ({ addr := 3, io_service := 0, config := 7 } : session Nat) (by decide)).2

/-- C5 (release under capacity): with `recycled_.size() < max_recycled_`,
`release(s)` puts `s` at the head of the pool, in front of the previous entries
in their previous order, so that the pool has exactly one entry more; the
capacity and the context are kept. -/
theorem release_under_capacity (f : simple_session_factory Config) (s : session Config)
    (hroom : sp_intrusive_list.size f.recycled_ < f.max_recycled_) :
    f.release s = { f with recycled_ := s :: f.recycled_ } ∧
      sp_intrusive_list.front (f.release s).recycled_ = some s ∧
      sp_intrusive_list.size (f.release s).recycled_ =
        sp_intrusive_list.size f.recycled_ + 1 := by
  simp only [sp_intrusive_list.size] at hroom
  simp [simple_session_factory.release, hroom, sp_intrusive_list.push_front,
    sp_intrusive_list.front, sp_intrusive_list.size]

/-- A release into a pool of one entry with capacity two. -/
theorem release_under_capacity_witness :
    simple_session_factory.release
        { max_recycled_ := 2, io_service_ := 0
          recycled_ := [{ addr := 1, io_service := 0, config := 7 }] }
        ({ addr := 2, io_service := 0, config := 7 } : session Nat) =
      { max_recycled_ := 2, io_service_ := 0
        recycled_ := [{ addr := 2, io_service := 0, config := 7 },
          { addr := 1, io_service := 0, config := 7 }] } :=
  (release_under_capacity
    { max_recycled_ := 2, io_service_ := 0
      recycled_ := [{ addr := 1, io_service := 0, config := 7 }] }
    ({ addr := 2, io_service := 0, config := 7 } : session Nat) (by decide)).1

/-- C6 (allocation failure path): when the pool is empty and the construction
of the new session ends in `std::bad_alloc`, `create` returns the null pointer
and `not_enough_memory`, the factory (pool, capacity, context) is unchanged,
and the allocator has served exactly one request: no retry. -/
theorem create_allocation_failure (m io : Nat) (config : Config) (h : allocator)
    (hfail : (session_wrapper.create io config h).1 = none) :
    simple_session_factory.create
        { max_recycled_ := m, io_service_ := io, recycled_ := ([] : sp_intrusive_list Config) }
        config h =
      { value := none
        error := error_code.not_enough_memory
        factory := { max_recycled_ := m, io_service_ := io, recycled_ := [] }
        heap := (make_shared h).2 } := by
  rw [simple_session_factory.create_nil]
  unfold session_wrapper.create at hfail
  rcases hm : make_shared h with ⟨_ | a, h'⟩
  · rfl
  · simp [hm] at hfail

/-- An allocator that fails once and would then succeed: `create` reports the
failure and leaves the successful outcome unused. -/
theorem create_allocation_failure_witness :
    simple_session_factory.create
        { max_recycled_ := 2, io_service_ := 0, recycled_ := ([] : sp_intrusive_list Nat) }
        7 [none, some 5] =
      { value := none
        error := error_code.not_enough_memory
        factory := { max_recycled_ := 2, io_service_ := 0, recycled_ := [] }
        heap := [some 5] } :=
  create_allocation_failure 2 0 7 [none, some 5] (by decide)

/-- C7 (create fails if and only if construction fails): for every factory,
configuration and allocator, the error of `create` is `not_enough_memory`
exactly when the pool is empty and the construction of the new session ends in
`std::bad_alloc`, it is the success code in every other case, and the returned
pointer is null exactly when the error is `not_enough_memory`. -/
theorem create_fails_iff (f : simple_session_factory Config) (config : Config)
    (h : allocator) :
    ((f.create config h).error = error_code.not_enough_memory ↔
      (sp_intrusive_list.empty f.recycled_ = true ∧
        (session_wrapper.create f.io_service_ config h).1 = none)) ∧
    ((f.create config h).error = error_code.success ↔
      ¬ (sp_intrusive_list.empty f.recycled_ = true ∧
        (session_wrapper.create f.io_service_ config h).1 = none)) ∧
    ((f.create config h).value = none ↔
      (f.create config h).error = error_code.not_enough_memory) := by
  obtain ⟨m, io, pool⟩ := f
  cases pool with
  | cons s rest =>
    rw [simple_session_factory.create_cons]
    simp [sp_intrusive_list.empty]
  | nil =>
    rw [simple_session_factory.create_nil]
    unfold session_wrapper.create
    rcases hm : make_shared h with ⟨_ | a, h'⟩ <;> simp [sp_intrusive_list.empty]

end factory

section ownership
variable {Config : Type}

/-- The ownership invariant: no address occurs twice among the pooled and the
held sessions together. -/
theorem client_state.step_exclusive (st : client_state Config) (c : factory_call Config)
    (hinv : (st.pooled ++ st.owned).Nodup) (hadm : st.admits c) :
    ((st.step c).pooled ++ (st.step c).owned).Nodup := by
  obtain ⟨⟨m, io, pool⟩, h, held⟩ := st
  cases c with
  | create config =>
    cases pool with
    | nil =>
      simp only [client_state.step, simple_session_factory.create_nil]
      simp only [client_state.admits, sp_intrusive_list.empty, List.isEmpty_nil,
        List.nil_append, true_implies] at hadm
      rcases hm : make_shared h with ⟨_ | a, h'⟩
      · simpa [client_state.pooled, client_state.owned] using hinv
      · have hfresh := hadm a (by simp [hm])
        simp only [client_state.pooled, client_state.owned, List.map_nil, List.nil_append,
          List.map_cons] at hinv ⊢
        exact List.nodup_cons.mpr ⟨hfresh, hinv⟩
    | cons s rest =>
      simp only [client_state.step, simple_session_factory.create_cons]
      simp only [client_state.pooled, client_state.owned, List.map_cons,
        List.cons_append] at hinv ⊢
      exact (List.perm_middle.nodup_iff).mpr hinv
  | release s =>
    simp only [client_state.admits] at hadm
    have hmem : s.addr ∈ held.map session.addr := List.mem_map_of_mem _ hadm
    have herase : (held.eraseP (fun e => e.addr == s.addr)).map session.addr =
        (held.map session.addr).erase s.addr := by
      rw [List.erase_eq_eraseP', List.eraseP_map]
      rfl
    simp only [client_state.pooled, client_state.owned, client_state.step, herase] at hinv ⊢
    unfold simple_session_factory.release
    split
    · simp only [sp_intrusive_list.push_front, List.map_cons, List.cons_append]
      have hperm : (s.addr :: (pool.map session.addr ++ (held.map session.addr).erase s.addr)).Perm
          (pool.map session.addr ++ held.map session.addr) :=
        (List.perm_middle.symm).trans
          (List.Perm.append_left _ (List.perm_cons_erase hmem).symm)
      exact hperm.nodup_iff.mpr hinv
    · exact hinv.sublist (List.Sublist.append_left (List.erase_sublist _ _) _)

/-- The ownership invariant is kept by every sequence of calls that obeys the
discipline. -/
theorem client_state.run_exclusive (calls : List (factory_call Config))
    (st : client_state Config) (hinv : (st.pooled ++ st.owned).Nodup)
    (hadm : st.admissible calls) :
    ((st.run calls).pooled ++ (st.run calls).owned).Nodup := by
  induction calls generalizing st with
  | nil => exact hinv
  | cons c cs ih =>
    simp only [client_state.admissible] at hadm
    simpa [client_state.run] using
      ih (st.step c) (client_state.step_exclusive st c hinv hadm.1) hadm.2

/-- A sequence that obeys the discipline does so up to each of its calls. -/
theorem client_state.admissible_take (calls : List (factory_call Config)) (k : Nat)
    (st : client_state Config) (hadm : st.admissible calls) :
    st.admissible (calls.take k) := by
  induction calls generalizing st k with
  | nil => simpa using hadm
  | cons c cs ih =>
    cases k with
    | zero => simp [client_state.admissible]
    | succ k =>
      simp only [client_state.admissible, List.take_succ_cons] at hadm ⊢
      exact ⟨hadm.1, ih k (st.step c) hadm.2⟩

/-- C8 (exclusive ownership): on a factory whose pool starts empty, along every
sequence of calls in which constructed sessions are fresh and only held handles
are released, the state `st` after every call (after every prefix
`calls.take k`) has no session pooled twice, no session held twice and no
session both pooled and held; a handle that `create` returns in such a state
is not in the pool afterwards, the pool `create` leaves is the old pool
without its head, and the head is the only entry of the pool with its
identity, so that removing the front entry by identity is popping the head. -/
theorem exclusive_ownership (io_service max_recycled : Nat) (h : allocator)
    (calls : List (factory_call Config)) (k : Nat) (st : client_state Config)
    (hadm : (client_state.init Config io_service max_recycled h).admissible calls)
    (hst : st = (client_state.init Config io_service max_recycled h).run (calls.take k)) :
    st.pooled.Nodup ∧ st.owned.Nodup ∧ List.Disjoint st.pooled st.owned ∧
    (∀ (config : Config) (s : session Config),
      (st.factory.create config st.heap).value = some s →
        s.addr ∉ (st.factory.create config st.heap).factory.recycled_.map session.addr) ∧
    (∀ (config : Config),
      (st.factory.create config st.heap).factory.recycled_ = st.factory.recycled_.tail) ∧
    (∀ (s : session Config), sp_intrusive_list.front st.factory.recycled_ = some s →
      st.factory.recycled_.filter (fun e => e.addr != s.addr) = st.factory.recycled_.tail) := by
  have hinv := client_state.run_exclusive (calls.take k)
    (client_state.init Config io_service max_recycled h) (by
      simp [client_state.init, client_state.pooled, client_state.owned,
        simple_session_factory.init])
    (client_state.admissible_take calls k _ hadm)
  rw [← hst] at hinv
  obtain ⟨⟨m, io, pool⟩, h2, held⟩ := st
  have hparts := List.nodup_append.mp hinv
  refine ⟨hparts.1, hparts.2.1, hparts.2.2, ?_, ?_, ?_⟩
  · intro config s hs
    cases pool with
    | nil =>
      simp only [simple_session_factory.create_nil]
      rcases make_shared h2 with ⟨_ | a, h'⟩ <;> simp
    | cons p rest =>
      simp only [simple_session_factory.create_cons, Option.some.injEq] at hs ⊢
      subst hs
      simp only [client_state.pooled, List.map_cons] at hparts
      exact (List.nodup_cons.mp hparts.1).1
  · intro config
    cases pool with
    | nil =>
      simp only [simple_session_factory.create_nil]
      rcases make_shared h2 with ⟨_ | a, h'⟩ <;> simp
    | cons p rest =>
      simp [simple_session_factory.create_cons]
  · intro s hs
    cases pool with
    | nil => simp [sp_intrusive_list.front] at hs
    | cons p rest =>
      simp only [sp_intrusive_list.front, List.head?_cons, Option.some.injEq] at hs
      subst hs
      simp only [client_state.pooled, List.map_cons] at hparts
      have hnot := (List.nodup_cons.mp hparts.1).1
      have hkeep : rest.filter (fun e => e.addr != p.addr) = rest := by
        rw [List.filter_eq_self]
        intro e he
        have hne : e.addr ≠ p.addr := fun heq => hnot (heq ▸ List.mem_map_of_mem _ he)
        simpa using hne
      simp [List.filter_cons, hkeep]

/-- Two sessions are constructed, both are released into a pool of capacity
one, and the first one is handed out again. -/
theorem exclusive_ownership_witness :
    (client_state.run (client_state.init Nat 0 1 [some 1, some 2])
      [factory_call.create 7, factory_call.create 7,
        factory_call.release { addr := 1, io_service := 0, config := 7 },
        factory_call.release { addr := 2, io_service := 0, config := 7 },
        factory_call.create 8]).pooled = [] ∧
    (client_state.run (client_state.init Nat 0 1 [some 1, some 2])
      [factory_call.create 7, factory_call.create 7,
        factory_call.release { addr := 1, io_service := 0, config := 7 },
        factory_call.release { addr := 2, io_service := 0, config := 7 },
        factory_call.create 8]).owned = [1] ∧
    List.Disjoint
      (client_state.run (client_state.init Nat 0 1 [some 1, some 2])
        [factory_call.create 7, factory_call.create 7,
          factory_call.release { addr := 1, io_service := 0, config := 7 },
          factory_call.release { addr := 2, io_service := 0, config := 7 },
          factory_call.create 8]).pooled
      (client_state.run (client_state.init Nat 0 1 [some 1, some 2])
        [factory_call.create 7, factory_call.create 7,
          factory_call.release { addr := 1, io_service := 0, config := 7 },
          factory_call.release { addr := 2, io_service := 0, config := 7 },
          factory_call.create 8]).owned :=
  ⟨by decide, by decide,
    (exclusive_ownership 0 1 [some 1, some 2]
      [factory_call.create 7, factory_call.create 7,
        factory_call.release { addr := 1, io_service := 0, config := 7 },
        factory_call.release { addr := 2, io_service := 0, config := 7 },
        factory_call.create 8] 5 _
      (by
        simp [client_state.admissible, client_state.admits, client_state.step,
          client_state.init, simple_session_factory.init, simple_session_factory.create,
          simple_session_factory.release, session_wrapper.create, make_shared,
          sp_intrusive_list.empty, sp_intrusive_list.front, sp_intrusive_list.erase,
          sp_intrusive_list.size, sp_intrusive_list.push_front])
      rfl).2.2.1⟩

end ownership

/-! ## Handler binding: properties -/

/-- The count of a latch after a `count_up`, on the same or on another latch. -/
theorem latch.count_up_apply (c r : Nat) (σ : store) :
    latch.count_up c σ r = σ r + if r = c then 1 else 0 := by
  unfold latch.count_up
  by_cases hr : r = c
  · subst hr
    simp
  · simp [hr]

/-- The total count of a set of latches after a `count_up`. -/
theorem latch.sum_count_up (s : Finset Nat) (c : Nat) (σ : store) :
    ∑ r in s, latch.count_up c σ r = (∑ r in s, σ r) + if c ∈ s then 1 else 0 := by
  simp [latch.count_up_apply, Finset.sum_add_distrib]

/-- What posting and running a bound `tracking_handler` comes to: the three
hooks, then the call. -/
theorem io_service.dispatch_tracking (t : tracking_handler) (call : store → store)
    (σ : store) :
    io_service.dispatch
        { call := call
          allocate := some t.asio_handler_allocate
          deallocate := some t.asio_handler_deallocate
          invoke := some t.asio_handler_invoke } σ =
      call (latch.count_up t.invoke_counter_
        (latch.count_up t.dealloc_counter_ (latch.count_up t.alloc_counter_ σ))) := by
  simp [io_service.dispatch, io_service.post, io_service.run, io_service.init,
    io_service.complete, handler.do_allocate, handler.do_deallocate, handler.do_invoke,
    tracking_handler.asio_handler_allocate, tracking_handler.asio_handler_deallocate,
    tracking_handler.asio_handler_invoke]

/-- The hooks of a `tracking_handler` leave the latches of a set that holds
none of its three counters alone. -/
theorem tracking_handler.hooks_frame (t : tracking_handler) (s : Finset Nat) (σ : store)
    (ha : t.alloc_counter_ ∉ s) (hd : t.dealloc_counter_ ∉ s) (hi : t.invoke_counter_ ∉ s)
    (r : Nat) (hr : r ∈ s) :
    latch.count_up t.invoke_counter_
      (latch.count_up t.dealloc_counter_ (latch.count_up t.alloc_counter_ σ)) r = σ r := by
  have h1 : r ≠ t.alloc_counter_ := fun h => ha (h ▸ hr)
  have h2 : r ≠ t.dealloc_counter_ := fun h => hd (h ▸ hr)
  have h3 : r ≠ t.invoke_counter_ := fun h => hi (h ▸ hr)
  simp [latch.count_up_apply, h1, h2, h3]

/-- The total of a set of latches that holds none of the three counters of a
`tracking_handler` is left alone by its hooks. -/
theorem tracking_handler.hooks_sum (t : tracking_handler) (s : Finset Nat) (σ : store)
    (ha : t.alloc_counter_ ∉ s) (hd : t.dealloc_counter_ ∉ s) (hi : t.invoke_counter_ ∉ s) :
    ∑ r in s, latch.count_up t.invoke_counter_
      (latch.count_up t.dealloc_counter_ (latch.count_up t.alloc_counter_ σ)) r =
      ∑ r in s, σ r :=
  Finset.sum_congr rfl (fun r hr => tracking_handler.hooks_frame t s σ ha hd hi r hr)

/-- C9 (composition call count): for a `tracking_handler` `t`, any store, call
counters `c1`, `c2`, `c3` and a set `s` of latches that holds the call counters
and none of the three hook counters of `t`: posting and running once the
handler bound to one, two or three of the call counters changes the latches of
`s` exactly as one call `H(A1..An)` does, amounts to exactly one, two or three
`count_up` calls on them, and takes a counter bound to every slot from its
count to its count plus one, two or three. -/
theorem composition_call_count (t : tracking_handler) (σ : store) (c1 c2 c3 : Nat)
    (s : Finset Nat) (hc1 : c1 ∈ s) (hc2 : c2 ∈ s) (hc3 : c3 ∈ s)
    (ha : t.alloc_counter_ ∉ s) (hd : t.dealloc_counter_ ∉ s)
    (hi : t.invoke_counter_ ∉ s) :
    ((∀ r ∈ s, io_service.dispatch (bind_handler1 t.handler1 c1) σ r = t.call1 c1 σ r) ∧
      store.increments s σ (io_service.dispatch (bind_handler1 t.handler1 c1) σ) = 1 ∧
      latch.value c1 (io_service.dispatch (bind_handler1 t.handler1 c1) σ) =
        latch.value c1 σ + 1) ∧
    ((∀ r ∈ s, io_service.dispatch (bind_handler2 t.handler2 c1 c2) σ r =
        t.call2 c1 c2 σ r) ∧
      store.increments s σ (io_service.dispatch (bind_handler2 t.handler2 c1 c2) σ) = 2 ∧
      (c2 = c1 → latch.value c1 (io_service.dispatch (bind_handler2 t.handler2 c1 c2) σ) =
        latch.value c1 σ + 2)) ∧
    ((∀ r ∈ s, io_service.dispatch (bind_handler3 t.handler3 c1 c2 c3) σ r =
        t.call3 c1 c2 c3 σ r) ∧
      store.increments s σ (io_service.dispatch (bind_handler3 t.handler3 c1 c2 c3) σ) = 3 ∧
      (c2 = c1 → c3 = c1 →
        latch.value c1 (io_service.dispatch (bind_handler3 t.handler3 c1 c2 c3) σ) =
          latch.value c1 σ + 3)) := by
  have hframe := tracking_handler.hooks_frame t s σ ha hd hi
  have hsum := tracking_handler.hooks_sum t s σ ha hd hi
  simp only [bind_handler1, bind_handler2, bind_handler3, tracking_handler.handler1,
    tracking_handler.handler2, tracking_handler.handler3, io_service.dispatch_tracking,
    store.increments, latch.value]
  generalize latch.count_up t.invoke_counter_
    (latch.count_up t.dealloc_counter_ (latch.count_up t.alloc_counter_ σ)) = τ
    at hframe hsum ⊢
  refine ⟨⟨?_, ?_, ?_⟩, ⟨?_, ?_, ?_⟩, ⟨?_, ?_, ?_⟩⟩
  · intro r hr
    simp [tracking_handler.call1, latch.count_up_apply, hframe r hr]
  · simp [tracking_handler.call1, latch.sum_count_up, hsum, hc1]
  · simp [tracking_handler.call1, latch.count_up_apply, hframe c1 hc1]
  · intro r hr
    simp [tracking_handler.call2, latch.count_up_apply, hframe r hr]
  · simp [tracking_handler.call2, latch.sum_count_up, hsum, hc1, hc2, add_assoc]
  · intro h21
    subst h21
    simp [tracking_handler.call2, latch.count_up_apply, hframe c2 hc2, add_assoc]
  · intro r hr
    simp [tracking_handler.call3, latch.count_up_apply, hframe r hr]
  · simp [tracking_handler.call3, latch.sum_count_up, hsum, hc1, hc2, hc3, add_assoc]
  · intro h21 h31
    subst h21 h31
    simp [tracking_handler.call3, latch.count_up_apply, hframe c3 hc3, add_assoc]

/-- The assertions on `call_counter` of the three tests: the latch bound to
every slot counts 1, 2 and 3. -/
theorem composition_call_count_witness :
    latch.value 3 delegation_with_1_arg = 1 ∧ latch.value 3 delegation_with_2_args = 2 ∧
      latch.value 3 delegation_with_3_args = 3 :=
  have h := composition_call_count (tracking_handler.mk 0 1 2) store.fresh 3 3 3 {3}
    (by decide) (by decide) (by decide) (by decide) (by decide) (by decide)
  ⟨h.1.2.2, h.2.1.2.2 rfl, h.2.2.2.2 rfl rfl⟩

/-- The three counters of a `tracking_handler` after its three hooks and a call
that leaves them alone. -/
theorem tracking_handler.hooks_counted (t : tracking_handler) (σ : store)
    (call : store → store)
    (had : t.alloc_counter_ ≠ t.dealloc_counter_)
    (hai : t.alloc_counter_ ≠ t.invoke_counter_)
    (hdi : t.dealloc_counter_ ≠ t.invoke_counter_)
    (hcall : ∀ τ : store, call τ t.alloc_counter_ = τ t.alloc_counter_ ∧
      call τ t.dealloc_counter_ = τ t.dealloc_counter_ ∧
      call τ t.invoke_counter_ = τ t.invoke_counter_) :
    t.hooks_paired σ (call (latch.count_up t.invoke_counter_
      (latch.count_up t.dealloc_counter_ (latch.count_up t.alloc_counter_ σ)))) := by
  refine ⟨1, le_refl 1, ?_, ?_, ?_⟩
  · simp [latch.value, (hcall _).1, latch.count_up_apply, had, hai]
  · simp [latch.value, (hcall _).2.1, latch.count_up_apply, had.symm, hdi]
  · simp [latch.value, (hcall _).2.2, latch.count_up_apply, hai.symm, hdi.symm]

/-- The counters of a `tracking_handler` `t` whose three hook counters are three
different latches, none of them among the call counters `s`: after the
handler bound to one, two or three call counters in `s` has been posted and
run once, the allocation counter and the deallocation counter have grown by
the same number, at least one, and the invocation counter by exactly one. -/
theorem tracking_handler.dispatch_counted (t : tracking_handler) (σ : store) (c1 c2 c3 : Nat)
    (s : Finset Nat) (hc1 : c1 ∈ s) (hc2 : c2 ∈ s) (hc3 : c3 ∈ s)
    (ha : t.alloc_counter_ ∉ s) (hd : t.dealloc_counter_ ∉ s)
    (hi : t.invoke_counter_ ∉ s)
    (had : t.alloc_counter_ ≠ t.dealloc_counter_)
    (hai : t.alloc_counter_ ≠ t.invoke_counter_)
    (hdi : t.dealloc_counter_ ≠ t.invoke_counter_) :
    t.hooks_paired σ (io_service.dispatch (bind_handler1 t.handler1 c1) σ) ∧
    t.hooks_paired σ (io_service.dispatch (bind_handler2 t.handler2 c1 c2) σ) ∧
    t.hooks_paired σ (io_service.dispatch (bind_handler3 t.handler3 c1 c2 c3) σ) := by
  have h1a : t.alloc_counter_ ≠ c1 := fun h => ha (h ▸ hc1)
  have h1d : t.dealloc_counter_ ≠ c1 := fun h => hd (h ▸ hc1)
  have h1i : t.invoke_counter_ ≠ c1 := fun h => hi (h ▸ hc1)
  have h2a : t.alloc_counter_ ≠ c2 := fun h => ha (h ▸ hc2)
  have h2d : t.dealloc_counter_ ≠ c2 := fun h => hd (h ▸ hc2)
  have h2i : t.invoke_counter_ ≠ c2 := fun h => hi (h ▸ hc2)
  have h3a : t.alloc_counter_ ≠ c3 := fun h => ha (h ▸ hc3)
  have h3d : t.dealloc_counter_ ≠ c3 := fun h => hd (h ▸ hc3)
  have h3i : t.invoke_counter_ ≠ c3 := fun h => hi (h ▸ hc3)
  simp only [bind_handler1, bind_handler2, bind_handler3, tracking_handler.handler1,
    tracking_handler.handler2, tracking_handler.handler3, io_service.dispatch_tracking]
  refine ⟨?_, ?_, ?_⟩
  · apply tracking_handler.hooks_counted t σ _ had hai hdi
    intro τ
    simp [tracking_handler.call1, latch.count_up_apply, h1a, h1d, h1i]
  · apply tracking_handler.hooks_counted t σ _ had hai hdi
    intro τ
    simp [tracking_handler.call2, latch.count_up_apply, h1a, h1d, h1i, h2a, h2d, h2i]
  · apply tracking_handler.hooks_counted t σ _ had hai hdi
    intro τ
    simp [tracking_handler.call3, latch.count_up_apply, h1a, h1d, h1i, h2a, h2d, h2i,
      h3a, h3d, h3i]

/-- The assertions on `alloc_counter`, `dealloc_counter` and `invoke_counter`
of the three tests, whose latches start at zero. -/
theorem tracking_handler.tests_counted :
    (tracking_handler.mk 0 1 2).hooks_paired store.fresh delegation_with_1_arg ∧
    (tracking_handler.mk 0 1 2).hooks_paired store.fresh delegation_with_2_args ∧
    (tracking_handler.mk 0 1 2).hooks_paired store.fresh delegation_with_3_args :=
  tracking_handler.dispatch_counted (tracking_handler.mk 0 1 2) store.fresh 3 3 3 {3}
    (by decide) (by decide) (by decide) (by decide) (by decide) (by decide)
    (by decide) (by decide) (by decide)

/-- What posting and running one handler on a context with no pending work
comes to: the allocation, the deallocation, then the dispatch of the call of
the handler through `do_invoke`. -/
theorem io_service.dispatch_eq (h : handler (store → store)) (σ : store) :
    io_service.dispatch h σ = h.do_invoke h.call (h.do_deallocate (h.do_allocate σ)) := by
  simp [io_service.dispatch, io_service.post, io_service.run, io_service.init,
    io_service.complete]

/-- C11 (hook forwarding): for every base handler `H` of one, two or three
arguments, any bound values and any store, the composed handler exposes
exactly the invocation hook of `H`; when `H` defines an invocation hook,
posting and running the composed handler calls that hook, once, with the
callable `H(A1..An)`, in the store the allocation and deallocation have left;
when `H` defines none, the composed handler exposes none and the dispatch is
the direct call `H(A1..An)`. -/
theorem hook_forwarding {A1 A2 A3 : Type} (h1 : handler (A1 → store → store))
    (h2 : handler (A1 → A2 → store → store))
    (h3 : handler (A1 → A2 → A3 → store → store))
    (a1 : A1) (a2 : A2) (a3 : A3) (σ : store) :
    ((bind_handler1 h1 a1).invoke = h1.invoke ∧
      (∀ hook, h1.invoke = some hook →
        io_service.dispatch (bind_handler1 h1 a1) σ =
          hook (h1.call a1) (h1.do_deallocate (h1.do_allocate σ))) ∧
      (h1.invoke = none → (bind_handler1 h1 a1).invoke = none ∧
        io_service.dispatch (bind_handler1 h1 a1) σ =
          h1.call a1 (h1.do_deallocate (h1.do_allocate σ)))) ∧
    ((bind_handler2 h2 a1 a2).invoke = h2.invoke ∧
      (∀ hook, h2.invoke = some hook →
        io_service.dispatch (bind_handler2 h2 a1 a2) σ =
          hook (h2.call a1 a2) (h2.do_deallocate (h2.do_allocate σ))) ∧
      (h2.invoke = none → (bind_handler2 h2 a1 a2).invoke = none ∧
        io_service.dispatch (bind_handler2 h2 a1 a2) σ =
          h2.call a1 a2 (h2.do_deallocate (h2.do_allocate σ)))) ∧
    ((bind_handler3 h3 a1 a2 a3).invoke = h3.invoke ∧
      (∀ hook, h3.invoke = some hook →
        io_service.dispatch (bind_handler3 h3 a1 a2 a3) σ =
          hook (h3.call a1 a2 a3) (h3.do_deallocate (h3.do_allocate σ))) ∧
      (h3.invoke = none → (bind_handler3 h3 a1 a2 a3).invoke = none ∧
        io_service.dispatch (bind_handler3 h3 a1 a2 a3) σ =
          h3.call a1 a2 a3 (h3.do_deallocate (h3.do_allocate σ)))) := by
  refine ⟨⟨rfl, ?_, ?_⟩, ⟨rfl, ?_, ?_⟩, ⟨rfl, ?_, ?_⟩⟩
  · intro hook hh
    simp [io_service.dispatch_eq, bind_handler1, handler.do_invoke, handler.do_allocate,
      handler.do_deallocate, hh]
  · intro hh
    simp [io_service.dispatch_eq, bind_handler1, handler.do_invoke, handler.do_allocate,
      handler.do_deallocate, hh]
  · intro hook hh
    simp [io_service.dispatch_eq, bind_handler2, handler.do_invoke, handler.do_allocate,
      handler.do_deallocate, hh]
  · intro hh
    simp [io_service.dispatch_eq, bind_handler2, handler.do_invoke, handler.do_allocate,
      handler.do_deallocate, hh]
  · intro hook hh
    simp [io_service.dispatch_eq, bind_handler3, handler.do_invoke, handler.do_allocate,
      handler.do_deallocate, hh]
  · intro hh
    simp [io_service.dispatch_eq, bind_handler3, handler.do_invoke, handler.do_allocate,
      handler.do_deallocate, hh]

/-- The handler of `delegation_with_1_arg` is dispatched through the invocation
hook of its `tracking_handler`, and a handler with no hook of its own, bound
to the same latch, is called directly. -/
theorem hook_forwarding_witness :
    delegation_with_1_arg =
      (tracking_handler.mk 0 1 2).asio_handler_invoke ((tracking_handler.mk 0 1 2).call1 3)
        ((tracking_handler.mk 0 1 2).handler1.do_deallocate
          ((tracking_handler.mk 0 1 2).handler1.do_allocate store.fresh)) ∧
    io_service.dispatch
        (bind_handler1
          { call := latch.count_up, allocate := none, deallocate := none, invoke := none } 3)
        store.fresh =
      latch.count_up 3 store.fresh :=
  ⟨(hook_forwarding (tracking_handler.mk 0 1 2).handler1 (tracking_handler.mk 0 1 2).handler2
      (tracking_handler.mk 0 1 2).handler3 3 3 3 store.fresh).1.2.1 _ rfl,
    ((hook_forwarding
      { call := latch.count_up, allocate := none, deallocate := none, invoke := none }
      (tracking_handler.mk 0 1 2).handler2 (tracking_handler.mk 0 1 2).handler3
      3 3 3 store.fresh).1.2.2 rfl).2⟩

/-! ## Session pool factory: capacity and configuration -/

section recycling
variable {Config : Type}

/-- C12 (create never checks capacity): for every pool, configuration and
allocator, the pointer, the error, the pool and the allocator that `create`
leaves are the same under any two capacities `m1` and `m2`; on an empty pool
`create` constructs a session whenever the allocation succeeds, whatever the
capacity (zero included) and whatever handles callers hold; and `create`
never makes the pool larger. -/
theorem create_ignores_capacity (m1 m2 io : Nat) (pool : sp_intrusive_list Config)
    (config : Config) (h : allocator) :
    (simple_session_factory.create
        { max_recycled_ := m1, io_service_ := io, recycled_ := pool } config h).value =
      (simple_session_factory.create
        { max_recycled_ := m2, io_service_ := io, recycled_ := pool } config h).value ∧
    (simple_session_factory.create
        { max_recycled_ := m1, io_service_ := io, recycled_ := pool } config h).error =
      (simple_session_factory.create
        { max_recycled_ := m2, io_service_ := io, recycled_ := pool } config h).error ∧
    (simple_session_factory.create
        { max_recycled_ := m1, io_service_ := io, recycled_ := pool } config h).factory.recycled_ =
      (simple_session_factory.create
        { max_recycled_ := m2, io_service_ := io, recycled_ := pool } config h).factory.recycled_ ∧
    (simple_session_factory.create
        { max_recycled_ := m1, io_service_ := io, recycled_ := pool } config h).heap =
      (simple_session_factory.create
        { max_recycled_ := m2, io_service_ := io, recycled_ := pool } config h).heap ∧
    (∀ (a : Nat) (rest : allocator) (held : List (session Config)),
      (client_state.step
        { factory := { max_recycled_ := m1, io_service_ := io, recycled_ := [] }
          heap := some a :: rest
          held := held } (factory_call.create config)) =
        { factory := { max_recycled_ := m1, io_service_ := io, recycled_ := [] }
          heap := rest
          held := { addr := a, io_service := io, config := config } :: held }) ∧
    sp_intrusive_list.size (simple_session_factory.create
        { max_recycled_ := m1, io_service_ := io, recycled_ := pool } config h).factory.recycled_ ≤
      sp_intrusive_list.size pool := by
  refine ⟨?_, ?_, ?_, ?_, ?_, ?_⟩
  · cases pool with
    | nil =>
      simp only [simple_session_factory.create_nil]
      rcases make_shared h with ⟨_ | a, h'⟩ <;> rfl
    | cons s rest => simp only [simple_session_factory.create_cons]
  · cases pool with
    | nil =>
      simp only [simple_session_factory.create_nil]
      rcases make_shared h with ⟨_ | a, h'⟩ <;> rfl
    | cons s rest => simp only [simple_session_factory.create_cons]
  · cases pool with
    | nil =>
      simp only [simple_session_factory.create_nil]
      rcases make_shared h with ⟨_ | a, h'⟩ <;> rfl
    | cons s rest => simp only [simple_session_factory.create_cons]
  · cases pool with
    | nil =>
      simp only [simple_session_factory.create_nil]
      rcases make_shared h with ⟨_ | a, h'⟩ <;> rfl
    | cons s rest => simp only [simple_session_factory.create_cons]
  · intro a rest held
    simp [client_state.step, simple_session_factory.create_nil, make_shared]
  · exact simple_session_factory.create_size_le _ config h

/-- C13 (a recycled session is not reconfigured): on a pool with head `s`,
`create` leaves the same result (pointer, error, factory, allocator) for any
two configurations `c1` and `c2`; the session it returns is `s` with the
configuration `s` already has; and a session constructed with `c0` at address
`a`, released into a factory with room and handed out again by `create(c1)`,
still carries `c0`. -/
theorem recycled_not_reconfigured (m io : Nat) (s : session Config)
    (rest : sp_intrusive_list Config) (c0 c1 c2 : Config) (h : allocator) :
    simple_session_factory.create
        { max_recycled_ := m, io_service_ := io, recycled_ := s :: rest } c1 h =
      simple_session_factory.create
        { max_recycled_ := m, io_service_ := io, recycled_ := s :: rest } c2 h ∧
    (simple_session_factory.create
        { max_recycled_ := m, io_service_ := io, recycled_ := s :: rest } c1 h).value =
      some s ∧
    (∀ r, (simple_session_factory.create
        { max_recycled_ := m, io_service_ := io, recycled_ := s :: rest } c1 h).value =
          some r → r.config = s.config) ∧
    (∀ (a : Nat) (more : allocator), 0 < m →
      (simple_session_factory.create
          { max_recycled_ := m, io_service_ := io
            recycled_ := ([] : sp_intrusive_list Config) } c0 (some a :: more)).value =
        some { addr := a, io_service := io, config := c0 } ∧
      (simple_session_factory.create
        (simple_session_factory.release
          (simple_session_factory.create
            { max_recycled_ := m, io_service_ := io
              recycled_ := ([] : sp_intrusive_list Config) } c0 (some a :: more)).factory
          { addr := a, io_service := io, config := c0 }) c1 more).value =
        some { addr := a, io_service := io, config := c0 }) := by
  refine ⟨?_, ?_, ?_, ?_⟩
  · simp only [simple_session_factory.create_cons]
  · simp only [simple_session_factory.create_cons]
  · intro r hr
    simp only [simple_session_factory.create_cons, Option.some.injEq] at hr
    rw [← hr]
  · intro a more hm
    have hrel : simple_session_factory.release
        { max_recycled_ := m, io_service_ := io
          recycled_ := ([] : sp_intrusive_list Config) }
        { addr := a, io_service := io, config := c0 } =
        { max_recycled_ := m, io_service_ := io
          recycled_ := [{ addr := a, io_service := io, config := c0 }] } := by
      simp [simple_session_factory.release, sp_intrusive_list.size,
        sp_intrusive_list.push_front, hm]
    simp [simple_session_factory.create_nil, make_shared, hrel,
      simple_session_factory.create_cons]

/-- With capacity zero and callers that already hold two sessions, `create`
on the empty pool still constructs a session. -/
theorem create_ignores_capacity_witness :
    client_state.step
        { factory := { max_recycled_ := 0, io_service_ := 0
                       recycled_ := ([] : sp_intrusive_list Nat) }
          heap := [some 3]
          held := [{ addr := 1, io_service := 0, config := 7 },
            { addr := 2, io_service := 0, config := 7 }] } (factory_call.create 8) =
      { factory := { max_recycled_ := 0, io_service_ := 0, recycled_ := [] }
        heap := []
        held := [{ addr := 3, io_service := 0, config := 8 },
          { addr := 1, io_service := 0, config := 7 },
          { addr := 2, io_service := 0, config := 7 }] } :=
  (create_ignores_capacity 0 5 0 ([] : sp_intrusive_list Nat) 8 [some 3]).2.2.2.2.1 3 []
    [{ addr := 1, io_service := 0, config := 7 }, { addr := 2, io_service := 0, config := 7 }]

/-- A session constructed with configuration 7, released and handed out again
by `create(8)`, carries 7. -/
theorem recycled_not_reconfigured_witness :
    (simple_session_factory.create
      (simple_session_factory.release
        (simple_session_factory.create
          { max_recycled_ := 2, io_service_ := 0
            recycled_ := ([] : sp_intrusive_list Nat) } 7 [some 1]).factory
        { addr := 1, io_service := 0, config := 7 }) 8 []).value =
      some { addr := 1, io_service := 0, config := 7 } :=
  ((recycled_not_reconfigured 2 0 { addr := 9, io_service := 0, config := 5 } [] 7 8 8
    []).2.2.2 1 [] (by decide)).2

/-- Releases into any pool: the first `max_recycled_ - size` handles stack up in
reverse in front of the pool, the others are dropped. -/
theorem simple_session_factory.release_all_pool (hs : List (session Config)) (m io : Nat)
    (pool : sp_intrusive_list Config) :
    simple_session_factory.release_all
        { max_recycled_ := m, io_service_ := io, recycled_ := pool } hs =
      { max_recycled_ := m, io_service_ := io
        recycled_ := (hs.take (m - pool.length)).reverse ++ pool } := by
  induction hs generalizing pool with
  | nil => simp [simple_session_factory.release_all]
  | cons x xs ih =>
    by_cases hlt : m > pool.length
    · have hstep : simple_session_factory.release
          { max_recycled_ := m, io_service_ := io, recycled_ := pool } x =
          { max_recycled_ := m, io_service_ := io, recycled_ := x :: pool } := by
        simp [simple_session_factory.release, sp_intrusive_list.push_front,
          sp_intrusive_list.size, hlt]
      obtain ⟨k, hk⟩ : ∃ k, m - pool.length = k + 1 := ⟨m - pool.length - 1, by omega⟩
      have hk2 : m - (x :: pool).length = k := by
        simp only [List.length_cons]
        omega
      have := ih (x :: pool)
      simp only [simple_session_factory.release_all, List.foldl_cons, hstep] at this ⊢
      rw [this, hk, hk2]
      simp
    · have hstep : simple_session_factory.release
          { max_recycled_ := m, io_service_ := io, recycled_ := pool } x =
          { max_recycled_ := m, io_service_ := io, recycled_ := pool } := by
        simp [simple_session_factory.release, sp_intrusive_list.size, hlt]
      have hz : m - pool.length = 0 := by omega
      have := ih pool
      simp only [simple_session_factory.release_all, List.foldl_cons, hstep] at this ⊢
      rw [this, hz]
      simp

/-- C14 (overflow keeps the oldest, never evicts): for every capacity and every
list of handles `hs`, of any length, releasing them in order into the empty
pool leaves the reverse of the first `min hs.length max_recycled` of them;
handles released once `max_recycled` have been released change nothing; and
a release never displaces an entry: the pool before is the tail end of the
pool after, with at most the released handle in front. -/
theorem overflow_keeps_oldest (io_service max_recycled : Nat) (hs more : List (session Config))
    (f : simple_session_factory Config) (s : session Config) :
    simple_session_factory.release_all
        (simple_session_factory.init Config io_service max_recycled) hs =
      { max_recycled_ := max_recycled, io_service_ := io_service
        recycled_ := (hs.take (min hs.length max_recycled)).reverse } ∧
    (max_recycled ≤ hs.length →
      simple_session_factory.release_all
          (simple_session_factory.init Config io_service max_recycled) (hs ++ more) =
        simple_session_factory.release_all
          (simple_session_factory.init Config io_service max_recycled) hs) ∧
    ((f.release s).recycled_ = f.recycled_ ∨ (f.release s).recycled_ = s :: f.recycled_) ∧
    f.recycled_ <:+ (f.release s).recycled_ := by
  have hmin : ∀ l : List (session Config),
      l.take (min l.length max_recycled) = l.take max_recycled := by
    intro l
    rcases Nat.le_total l.length max_recycled with hle | hle
    · rw [Nat.min_eq_left hle, List.take_of_length_le (le_refl _), List.take_of_length_le hle]
    · rw [Nat.min_eq_right hle]
  have hsplit : (f.release s).recycled_ = f.recycled_ ∨
      (f.release s).recycled_ = s :: f.recycled_ := by
    unfold simple_session_factory.release
    split
    · exact Or.inr rfl
    · exact Or.inl rfl
  refine ⟨?_, ?_, hsplit, ?_⟩
  · rw [hmin]
    simpa [simple_session_factory.init] using
      simple_session_factory.release_all_pool hs max_recycled io_service []
  · intro hfull
    have h1 := simple_session_factory.release_all_pool (hs ++ more) max_recycled io_service []
    have h2 := simple_session_factory.release_all_pool hs max_recycled io_service []
    simp only [simple_session_factory.init]
    rw [h1, h2]
    simp [List.take_append_of_le_length hfull]
  · rcases hsplit with heq | heq
    · exact heq ▸ List.suffix_refl _
    · exact heq ▸ List.suffix_cons _ _

/-- Three releases into a pool of capacity two: the third handle is dropped,
the first two stay, the second in front, as if the third release had not been
made. -/
theorem overflow_keeps_oldest_witness :
    simple_session_factory.release_all (simple_session_factory.init Nat 0 2)
        [{ addr := 1, io_service := 0, config := 7 },
          { addr := 2, io_service := 0, config := 7 },
          { addr := 3, io_service := 0, config := 7 }] =
      { max_recycled_ := 2, io_service_ := 0
        recycled_ := [{ addr := 2, io_service := 0, config := 7 },
          { addr := 1, io_service := 0, config := 7 }] } ∧
    simple_session_factory.release_all (simple_session_factory.init Nat 0 2)
        ([{ addr := 1, io_service := 0, config := 7 },
          { addr := 2, io_service := 0, config := 7 }] ++
          [{ addr := 3, io_service := 0, config := 7 }]) =
      simple_session_factory.release_all (simple_session_factory.init Nat 0 2)
        [{ addr := 1, io_service := 0, config := 7 },
          { addr := 2, io_service := 0, config := 7 }] :=
  ⟨(overflow_keeps_oldest 0 2
      [{ addr := 1, io_service := 0, config := 7 },
        { addr := 2, io_service := 0, config := 7 },
        { addr := 3, io_service := 0, config := 7 }] []
      (simple_session_factory.init Nat 0 2) { addr := 1, io_service := 0, config := 7 }).1,
    (overflow_keeps_oldest 0 2
      [{ addr := 1, io_service := 0, config := 7 },
        { addr := 2, io_service := 0, config := 7 }]
      [{ addr := 3, io_service := 0, config := 7 }]
      (simple_session_factory.init Nat 0 2)
      { addr := 1, io_service := 0, config := 7 }).2.1 (by decide)⟩

end recycling

/-! ## Handler binding: hook calls -/

/-- The record of the hook calls does not change what a dispatch does to the
store. -/
theorem io_service.dispatch_traced_latches (h : handler (store → store)) (σ : store) :
    (io_service.dispatch_traced h σ).latches = io_service.dispatch h σ := by
  obtain ⟨call, al, de, inv⟩ := h
  cases al <;> cases de <;> cases inv <;>
    simp [io_service.dispatch_traced, io_service.dispatch, io_service.post_traced,
      io_service.post, io_service.run_traced, io_service.run, io_service.init,
      io_service.complete_traced, io_service.complete, handler.do_allocate_traced,
      handler.do_allocate, handler.do_deallocate_traced, handler.do_deallocate,
      handler.do_invoke_traced, handler.do_invoke]

/-- The hook calls of the dispatch of a handler with all three hooks: one
allocation, one deallocation, one invocation, in this order, and the store
they leave. -/
theorem io_service.dispatch_traced_hooks (call : store → store) (al de : store → store)
    (inv : (store → store) → store → store) (σ : store) :
    io_service.dispatch_traced
        { call := call, allocate := some al, deallocate := some de, invoke := some inv } σ =
      { latches := inv call (de (al σ))
        calls := [hook_call.allocate, hook_call.deallocate, hook_call.invoke] } := by
  simp [io_service.dispatch_traced, io_service.post_traced, io_service.run_traced,
    io_service.init, io_service.complete_traced, handler.do_allocate_traced,
    handler.do_deallocate_traced, handler.do_invoke_traced]

/-- C10 (hook pairing): for every base handler that defines the three hooks,
that is, for any call operators `call1`, `call2`, `call3` of one, two and three
arguments and any hooks `al`, `de`, `inv`, for any bound values and any store:
after the context has posted and run once the handler composed by
`bind_handler`, the hook calls it has made are as many allocation hook calls as
deallocation hook calls, at least one of each, and exactly one invocation hook
call; the hooks called are those of the base handler, each applied once around
the one call `H(A1..An)`; and the record changes nothing in the store. -/
theorem hook_pairing {A1 A2 A3 : Type} (call1 : A1 → store → store)
    (call2 : A1 → A2 → store → store) (call3 : A1 → A2 → A3 → store → store)
    (al de : store → store) (inv : (store → store) → store → store)
    (a1 : A1) (a2 : A2) (a3 : A3) (σ : store) :
    (hook_call.paired (io_service.dispatch_traced (bind_handler1
        { call := call1, allocate := some al, deallocate := some de, invoke := some inv }
        a1) σ).calls ∧
      (io_service.dispatch_traced (bind_handler1
        { call := call1, allocate := some al, deallocate := some de, invoke := some inv }
        a1) σ).latches =
        io_service.dispatch (bind_handler1
          { call := call1, allocate := some al, deallocate := some de, invoke := some inv }
          a1) σ ∧
      io_service.dispatch (bind_handler1
        { call := call1, allocate := some al, deallocate := some de, invoke := some inv }
        a1) σ = inv (call1 a1) (de (al σ))) ∧
    (hook_call.paired (io_service.dispatch_traced (bind_handler2
        { call := call2, allocate := some al, deallocate := some de, invoke := some inv }
        a1 a2) σ).calls ∧
      (io_service.dispatch_traced (bind_handler2
        { call := call2, allocate := some al, deallocate := some de, invoke := some inv }
        a1 a2) σ).latches =
        io_service.dispatch (bind_handler2
          { call := call2, allocate := some al, deallocate := some de, invoke := some inv }
          a1 a2) σ ∧
      io_service.dispatch (bind_handler2
        { call := call2, allocate := some al, deallocate := some de, invoke := some inv }
        a1 a2) σ = inv (call2 a1 a2) (de (al σ))) ∧
    (hook_call.paired (io_service.dispatch_traced (bind_handler3
        { call := call3, allocate := some al, deallocate := some de, invoke := some inv }
        a1 a2 a3) σ).calls ∧
      (io_service.dispatch_traced (bind_handler3
        { call := call3, allocate := some al, deallocate := some de, invoke := some inv }
        a1 a2 a3) σ).latches =
        io_service.dispatch (bind_handler3
          { call := call3, allocate := some al, deallocate := some de, invoke := some inv }
          a1 a2 a3) σ ∧
      io_service.dispatch (bind_handler3
        { call := call3, allocate := some al, deallocate := some de, invoke := some inv }
        a1 a2 a3) σ = inv (call3 a1 a2 a3) (de (al σ))) := by
  have hpaired : hook_call.paired
      [hook_call.allocate, hook_call.deallocate, hook_call.invoke] := by
    simp [hook_call.paired]
  refine ⟨⟨?_, ?_, ?_⟩, ⟨?_, ?_, ?_⟩, ⟨?_, ?_, ?_⟩⟩
  · simpa only [bind_handler1, io_service.dispatch_traced_hooks] using hpaired
  · exact io_service.dispatch_traced_latches _ σ
  · rw [← io_service.dispatch_traced_latches]
    simp only [bind_handler1, io_service.dispatch_traced_hooks]
  · simpa only [bind_handler2, io_service.dispatch_traced_hooks] using hpaired
  · exact io_service.dispatch_traced_latches _ σ
  · rw [← io_service.dispatch_traced_latches]
    simp only [bind_handler2, io_service.dispatch_traced_hooks]
  · simpa only [bind_handler3, io_service.dispatch_traced_hooks] using hpaired
  · exact io_service.dispatch_traced_latches _ σ
  · rw [← io_service.dispatch_traced_latches]
    simp only [bind_handler3, io_service.dispatch_traced_hooks]

/-- The hook calls of the three tests, and those of a `tracking_handler` whose
three counters are one and the same latch. -/
theorem hook_pairing_witness :
    hook_call.paired (io_service.dispatch_traced
      (bind_handler1 (tracking_handler.mk 0 1 2).handler1 3) store.fresh).calls ∧
    hook_call.paired (io_service.dispatch_traced
      (bind_handler2 (tracking_handler.mk 0 1 2).handler2 3 3) store.fresh).calls ∧
    hook_call.paired (io_service.dispatch_traced
      (bind_handler3 (tracking_handler.mk 0 1 2).handler3 3 3 3) store.fresh).calls ∧
    hook_call.paired (io_service.dispatch_traced
      (bind_handler1 (tracking_handler.mk 0 0 0).handler1 3) store.fresh).calls :=
  ⟨(hook_pairing (tracking_handler.mk 0 1 2).call1 (tracking_handler.mk 0 1 2).call2
      (tracking_handler.mk 0 1 2).call3 (tracking_handler.mk 0 1 2).asio_handler_allocate
      (tracking_handler.mk 0 1 2).asio_handler_deallocate
      (tracking_handler.mk 0 1 2).asio_handler_invoke 3 3 3 store.fresh).1.1,
    (hook_pairing (tracking_handler.mk 0 1 2).call1 (tracking_handler.mk 0 1 2).call2
      (tracking_handler.mk 0 1 2).call3 (tracking_handler.mk 0 1 2).asio_handler_allocate
      (tracking_handler.mk 0 1 2).asio_handler_deallocate
      (tracking_handler.mk 0 1 2).asio_handler_invoke 3 3 3 store.fresh).2.1.1,
    (hook_pairing (tracking_handler.mk 0 1 2).call1 (tracking_handler.mk 0 1 2).call2
      (tracking_handler.mk 0 1 2).call3 (tracking_handler.mk 0 1 2).asio_handler_allocate
      (tracking_handler.mk 0 1 2).asio_handler_deallocate
      (tracking_handler.mk 0 1 2).asio_handler_invoke 3 3 3 store.fresh).2.2.1,
    (hook_pairing (tracking_handler.mk 0 0 0).call1 (tracking_handler.mk 0 0 0).call2
      (tracking_handler.mk 0 0 0).call3 (tracking_handler.mk 0 0 0).asio_handler_allocate
      (tracking_handler.mk 0 0 0).asio_handler_deallocate
      (tracking_handler.mk 0 0 0).asio_handler_invoke 3 3 3 store.fresh).1.1⟩
